import Mathlib

/-!
Verification development for the project/task tracker backend
(`index.js`, `projectTaskRoutes.js`).

The embedding is shallow: each Express handler becomes a pure Lean
function over explicit store states.  Mongo/mongoose document stores are
lists of records; the express-session store is an association list keyed
by session id.  Query/body values that may be absent in JavaScript
(`undefined`) are `Option`s; JavaScript strict equality `===` on two
possibly-undefined strings is exactly `Option String` equality.  Dates
are `Nat` timestamps.  Outbound provider calls (token exchange, profile
fetch) are oracle functions passed in as a `Provider` record, with
`none` standing for a network / non-2xx failure that the handler's
`catch` turns into an error redirect.
-/

namespace MyappBack

/-- JavaScript `a || b` for an optional string `a`: the empty string is
falsy, so both `undefined` and `""` fall through to the default. -/
def jsOr : Option String → String → String
  | some s, d => if s = "" then d else s
  | none, d => d

/-- A document in the `users` collection (schema at `index.js` lines
134-144): `socialId`, `name`, `email`, `platform`, `profilePicture`,
`createdAt`, `lastLogin`, plus the Mongo `_id`. -/
structure User where
  id : String
  socialId : String
  name : String
  email : String
  platform : String
  profilePicture : String
  createdAt : Nat
  lastLogin : Nat
deriving Repr, DecidableEq

/-- One express-session record as persisted in the `sessions`
collection: the passport-bound user (if logged in) and the pending
`linkedInState` nonce (if an initiate is in flight). -/
structure SessionRecord where
  userId : Option String
  linkedInState : Option String
deriving Repr, DecidableEq

/-- The session store: session id to session record. -/
def SessionStore := List (String × SessionRecord)
deriving instance DecidableEq for SessionStore

/-- Models `sessionStore.get(sid)`. -/
def SessionStore.get (st : SessionStore) (sid : String) : Option SessionRecord :=
  (List.find? (fun p => p.1 == sid) st).map Prod.snd

/-- Persisting a session record under `sid` (what `req.session.save`
commits to the store). -/
def SessionStore.set (st : SessionStore) (sid : String) (r : SessionRecord) : SessionStore :=
  if List.any st (fun p => p.1 == sid) then
    List.map (fun p => if p.1 == sid then (sid, r) else p) st
  else
    (sid, r) :: st

/-- The profile returned by LinkedIn's `/v2/userinfo` endpoint
(`sub`, `name`, `email`, `picture`); `picture` may be absent. -/
structure LinkedInProfile where
  sub : String
  name : String
  email : String
  picture : Option String
deriving Repr, DecidableEq

/-- The query string of `GET /auth/linkedin/callback`: each parameter is
absent (`none`) when not supplied in the URL. -/
structure CallbackQuery where
  code : Option String
  state : Option String
  error : Option String
  error_description : Option String
deriving Repr, DecidableEq

/-- Oracles for the two outbound provider calls of the callback handler.
`exchangeCode` maps the (possibly absent) `code` parameter to an access
token, `none` meaning the axios call threw; `fetchProfile` maps an
access token to the userinfo payload, `none` meaning the call threw. -/
structure Provider where
  exchangeCode : Option String → Option String
  fetchProfile : String → Option LinkedInProfile

/-- Where the callback handler redirects the browser: the query-string
error code appended to `FRONTEND_URL`, or the `/profile` landing page on
success. -/
inductive CallbackResult where
  /-- Redirect `?error={provider error}` (step 1, provider-reported error). -/
  | providerError (code : String)
  /-- Redirect `?error=no_session` (no session record in the store). -/
  | noSession
  /-- Redirect `?error=invalid_state` (state comparison failed). -/
  | invalidState
  /-- Redirect `?error=auth_failed` (token exchange or profile fetch threw). -/
  | authFailed
  /-- Redirect to `/profile` (identity bound to the session). -/
  | success
deriving Repr, DecidableEq

/-- Lines 357-378 of `index.js`: look the user up by
`{socialId: profileData.sub, platform: 'linkedin'}`; if absent create a
new document (picture defaulting to `''`), if present refresh `lastLogin`,
`name`, `email` and `profilePicture` (the latter keeping the old value
when `picture` is falsy).  Returns the new collection and the saved
user. -/
def upsertLinkedInUser (users : List User) (freshId : String)
    (prof : LinkedInProfile) (now : Nat) : List User × User :=
  match List.find? (fun u => u.socialId == prof.sub && u.platform == "linkedin") users with
  | none =>
      let u : User :=
        { id := freshId, socialId := prof.sub, name := prof.name, email := prof.email,
          platform := "linkedin", profilePicture := jsOr prof.picture "",
          createdAt := now, lastLogin := now }
      (users ++ [u], u)
  | some u0 =>
      let u : User :=
        { u0 with lastLogin := now, name := prof.name, email := prof.email,
                  profilePicture := jsOr prof.picture u0.profilePicture }
      (List.map (fun v => if v.id == u0.id then u else v) users, u)

/-- The Google profile fields the verify callback reads:
`profile.id`, `profile.displayName`, `profile.emails[0].value`,
`profile.photos[0]?.value`. -/
structure GoogleProfile where
  id : String
  displayName : String
  email : String
  photo : Option String
deriving Repr, DecidableEq

/-- Lines 155-178 of `index.js`, the GoogleStrategy verify callback: look
the user up by `{socialId: profile.id}` alone; if absent create a new
document with `platform: 'google'`, if present set only `lastLogin`,
then save.  Returns the new collection and the user handed to `done`. -/
def googleVerify (users : List User) (freshId : String)
    (prof : GoogleProfile) (now : Nat) : List User × User :=
  match List.find? (fun u => u.socialId == prof.id) users with
  | none =>
      let u : User :=
        { id := freshId, socialId := prof.id, name := prof.displayName, email := prof.email,
          platform := "google", profilePicture := jsOr prof.photo "",
          createdAt := now, lastLogin := now }
      (users ++ [u], u)
  | some u0 =>
      let u : User := { u0 with lastLogin := now }
      (List.map (fun v => if v.id == u0.id then u else v) users, u)

/-- Result of a callback request: the redirect issued and the two stores
after the request. -/
structure CallbackOutcome where
  result : CallbackResult
  sessions : SessionStore
  users : List User
deriving DecidableEq

/-- Handler `GET /auth/linkedin` (`index.js` lines 236-289): store the fresh
nonce as `linkedInState` on the session and persist it before
redirecting to the provider. -/
def linkedinInitiate (sessions : SessionStore) (sid : String) (nonce : String) : SessionStore :=
  match sessions.get sid with
  | some sess => sessions.set sid { sess with linkedInState := some nonce }
  | none => sessions.set sid { userId := none, linkedInState := some nonce }

/-- Handler `GET /auth/linkedin/callback` (`index.js` lines 291-407).  In order:
provider-reported `error` short-circuits; the session record is
re-fetched from the store (`no_session` if absent); the state comparison
is JavaScript `state !== verifySession.linkedInState`, i.e. equality of
the two `Option String`s; then token exchange and profile fetch (either
throwing lands in the outer catch, `auth_failed`); then the user upsert;
finally `req.login` binds the user id, `req.session.save` persists the
session, and the handler deletes `linkedInState` from the session object
before issuing the redirect.  The session middleware is mounted with
`resave: true` (`index.js` line 85), so its wrapped `res.end` commits
the session once more when the response ends — after the delete — and
the record left in the store is the cleared one: the bound user and no
pending state.  (With passport 0.6 or later `req.login` additionally
regenerates the session id, which clears the state just the same; the
model keeps the session id stable, the conservative choice for replay
analysis.) -/
def linkedinCallback (prov : Provider) (q : CallbackQuery) (sid : String)
    (sessions : SessionStore) (users : List User) (freshId : String) (now : Nat) :
    CallbackOutcome :=
  match q.error with
  | some e => ⟨.providerError e, sessions, users⟩
  | none =>
    match sessions.get sid with
    | none => ⟨.noSession, sessions, users⟩
    | some sess =>
      if q.state ≠ sess.linkedInState then ⟨.invalidState, sessions, users⟩
      else
        match prov.exchangeCode q.code with
        | none => ⟨.authFailed, sessions, users⟩
        | some tok =>
          match prov.fetchProfile tok with
          | none => ⟨.authFailed, sessions, users⟩
          | some prof =>
            let up := upsertLinkedInUser users freshId prof now
            let sessions2 := sessions.set sid
              { userId := some up.2.id, linkedInState := none }
            ⟨.success, sessions2, up.1⟩

/-! Resource handlers (`projectTaskRoutes.js`).

Each handler is a function from the authenticated user
(`req.user._id`, `none` when unauthenticated), the request pieces and
the current store contents to an HTTP status and the store contents
after the request.  An unauthenticated request to a handler that
dereferences `req.user._id` throws a `TypeError` inside the `try`, which
the `catch` converts to a 500.  A `:id` route parameter or a query/body
value that mongoose cannot cast to `ObjectId` raises a `CastError`,
likewise caught as 500. -/

/-- Models `mongoose.Types.ObjectId.isValid` on a string: a 24-character hex
string or any 12-character string. -/
def isValidObjectIdString (s : String) : Bool :=
  (s.length == 24 && s.toList.all fun c =>
      c.isDigit || ('a' ≤ c && c ≤ 'f') || ('A' ≤ c && c ≤ 'F'))
  || s.length == 12

/-- Models `mongoose.Types.ObjectId.isValid` on a possibly-absent value:
note `isValid(undefined)` is `false`. -/
def isValidObjectId : Option String → Bool
  | some s => isValidObjectIdString s
  | none => false

/-- Replace the first element satisfying the predicate (what
`findOneAndUpdate` does to the collection). -/
def replaceFirst (p : α → Bool) (x : α) : List α → List α
  | [] => []
  | a :: as => if p a then x :: as else a :: replaceFirst p x as

/-- Remove the first element satisfying the predicate (what
`findOneAndDelete` does to the collection). -/
def removeFirst (p : α → Bool) : List α → List α
  | [] => []
  | a :: as => if p a then as else a :: removeFirst p as

/-- A document in the `projects` collection (schema at
`projectTaskRoutes.js` lines 8-14): required `name` and `owner`,
optional `description`/`startDate`/`endDate`, plus the
`timestamps: true` managed fields `createdAt` and `updatedAt`. -/
structure Project where
  id : String
  name : String
  description : Option String
  startDate : Option Nat
  endDate : Option Nat
  owner : String
  createdAt : Nat
  updatedAt : Nat
deriving Repr, DecidableEq

/-- A JSON request body for the project routes: every schema field may
be present or absent.  A client may also send an `owner` value. -/
structure ProjectBody where
  name : Option String
  description : Option String
  startDate : Option Nat
  endDate : Option Nat
  owner : Option String
deriving Repr, DecidableEq

/-- A document in the `tasks` collection (schema at
`projectTaskRoutes.js` lines 19-27): required `project`, `name`,
`owner`; optional `description`/`duration`/`startDate`/`endDate`; plus
managed `createdAt`/`updatedAt`. -/
structure Task where
  id : String
  project : String
  name : String
  description : Option String
  duration : Option Nat
  startDate : Option Nat
  endDate : Option Nat
  owner : String
  createdAt : Nat
  updatedAt : Nat
deriving Repr, DecidableEq

/-- A JSON request body for the task routes. -/
structure TaskBody where
  project : Option String
  name : Option String
  description : Option String
  duration : Option Nat
  startDate : Option Nat
  endDate : Option Nat
  owner : Option String
deriving Repr, DecidableEq

/-- Handler `POST /api/projects` (lines 33-45): builds
`new Project({...req.body, owner: req.user._id})` — the spread happens
first, so the stamped `owner` always wins over any body value — then
saves.  An unauthenticated request throws on `req.user._id` (500); a
body whose `name` is absent — or the empty string, which mongoose's
required-string validator also rejects — fails validation on save (500,
nothing inserted); otherwise 201 and the document is appended. -/
def postProject (user : Option String) (b : ProjectBody)
    (projects : List Project) (freshId : String) (now : Nat) :
    Nat × List Project :=
  match user with
  | none => (500, projects)
  | some uid =>
    match b.name with
    | none => (500, projects)
    | some nm =>
      if nm == "" then (500, projects)
      else
        (201, projects ++ [{ id := freshId, name := nm, description := b.description,
                             startDate := b.startDate, endDate := b.endDate,
                             owner := uid, createdAt := now, updatedAt := now }])

/-- Handler `GET /api/projects` (lines 48-57): filter
`req.user ? {owner: req.user._id} : {}`. -/
def getProjects (user : Option String) (projects : List Project) : List Project :=
  match user with
  | some uid => List.filter (fun p => p.owner == uid) projects
  | none => projects

/-- Handler `GET /api/projects/:id` (lines 60-69): `Project.findById(id)` with
no owner condition; 404 when absent, 500 on a malformed id
(`CastError`). -/
def getProjectById (projects : List Project) (pid : String) : Nat × Option Project :=
  if !isValidObjectIdString pid then (500, none)
  else
    match List.find? (fun p => p.id == pid) projects with
    | some p => (200, some p)
    | none => (404, none)

/-- Mongoose casting/validation of a project update document
(`runValidators: true`): setting `name` to the empty string fails the
required-string validator, and an `owner` value that is not a valid
`ObjectId` fails the cast; either rejects the operation (500) without
touching the store. -/
def ProjectBody.updateOk (b : ProjectBody) : Bool :=
  b.name != some "" && (match b.owner with
    | some s => isValidObjectIdString s
    | none => true)

/-- Applying an update body to a project document: mongoose treats the
plain object as a `$set` of exactly the supplied paths, and
`timestamps: true` sets `updatedAt` to the operation time. -/
def applyProjectUpdate (b : ProjectBody) (now : Nat) (p : Project) : Project :=
  { p with
    name := b.name.getD p.name,
    description := match b.description with | some d => some d | none => p.description,
    startDate := match b.startDate with | some d => some d | none => p.startDate,
    endDate := match b.endDate with | some d => some d | none => p.endDate,
    owner := b.owner.getD p.owner,
    updatedAt := now }

/-- Handler `PUT /api/projects/:id` (lines 72-85):
`findOneAndUpdate({_id: id, owner: req.user._id}, req.body, ...)`; 404
when no document matches both conditions, otherwise the first match is
updated. -/
def putProject (user : Option String) (pid : String) (b : ProjectBody)
    (projects : List Project) (now : Nat) : Nat × List Project :=
  match user with
  | none => (500, projects)
  | some uid =>
    if !isValidObjectIdString pid then (500, projects)
    else if !b.updateOk then (500, projects)
    else
      match List.find? (fun p => p.id == pid && p.owner == uid) projects with
      | none => (404, projects)
      | some p0 =>
          (200, replaceFirst (fun p => p.id == pid && p.owner == uid)
                  (applyProjectUpdate b now p0) projects)

/-- Handler `DELETE /api/projects/:id` (lines 88-98):
`findOneAndDelete({_id: id, owner: req.user._id})`, 404 when nothing
matches; on success additionally `Task.deleteMany({project: id})` —
note the cascade has no owner condition. -/
def deleteProject (user : Option String) (pid : String)
    (projects : List Project) (tasks : List Task) :
    Nat × List Project × List Task :=
  match user with
  | none => (500, projects, tasks)
  | some uid =>
    if !isValidObjectIdString pid then (500, projects, tasks)
    else
      match List.find? (fun p => p.id == pid && p.owner == uid) projects with
      | none => (404, projects, tasks)
      | some _ =>
          (200, removeFirst (fun p => p.id == pid && p.owner == uid) projects,
                List.filter (fun t => t.project != pid) tasks)

/-- Handler `POST /api/tasks` (lines 102-132): destructures
`{project, name, description, duration, startDate, endDate}` from the
body (any body `owner` is discarded); 400 when
`!mongoose.Types.ObjectId.isValid(project)`; 404 when
`Project.findOne({_id: project, owner: req.user._id})` finds nothing;
otherwise the task is saved with `owner: req.user._id` (500 when `name`
is absent or the empty string, by required-field validation on save). -/
def postTask (user : Option String) (b : TaskBody) (projects : List Project)
    (tasks : List Task) (freshId : String) (now : Nat) : Nat × List Task :=
  if !isValidObjectId b.project then (400, tasks)
  else
    match b.project, user with
    | none, _ => (400, tasks)
    | some _, none => (500, tasks)
    | some pid, some uid =>
      match List.find? (fun p => p.id == pid && p.owner == uid) projects with
      | none => (404, tasks)
      | some _ =>
        match b.name with
        | none => (500, tasks)
        | some nm =>
          if nm == "" then (500, tasks)
          else
            (201, tasks ++ [{ id := freshId, project := pid, name := nm,
                              description := b.description, duration := b.duration,
                              startDate := b.startDate, endDate := b.endDate,
                              owner := uid, createdAt := now, updatedAt := now }])

/-- Handler `GET /api/tasks` (lines 135-147): owner filter as for projects;
`if (req.query.project)` adds a project condition — JavaScript
truthiness, so an empty string adds nothing — and a non-castable
project value raises `CastError` (500). -/
def getTasks (user : Option String) (queryProject : Option String)
    (tasks : List Task) : Nat × List Task :=
  let base := match user with
    | some uid => List.filter (fun t => t.owner == uid) tasks
    | none => tasks
  match queryProject with
  | none => (200, base)
  | some qp =>
      if qp == "" then (200, base)
      else if isValidObjectIdString qp then
        (200, List.filter (fun t => t.project == qp) base)
      else (500, [])

/-- Handler `GET /api/tasks/:id` (lines 150-159):
`Task.findOne({_id: id, owner: req.user._id})`, so unlike the project
variant this lookup is owner-scoped; 404 when nothing matches. -/
def getTaskById (user : Option String) (tid : String) (tasks : List Task) :
    Nat × Option Task :=
  match user with
  | none => (500, none)
  | some uid =>
    if !isValidObjectIdString tid then (500, none)
    else
      match List.find? (fun t => t.id == tid && t.owner == uid) tasks with
      | some t => (200, some t)
      | none => (404, none)

/-- Mongoose casting/validation of a task update document: empty `name`
fails the required validator; `project` or `owner` values that are not
valid `ObjectId`s fail the cast. -/
def TaskBody.updateOk (b : TaskBody) : Bool :=
  b.name != some ""
  && (match b.project with | some s => isValidObjectIdString s | none => true)
  && (match b.owner with | some s => isValidObjectIdString s | none => true)

/-- Applying an update body to a task document (`$set` of the supplied
paths, `updatedAt` refreshed; the `project` reference is not
re-validated against the projects collection). -/
def applyTaskUpdate (b : TaskBody) (now : Nat) (t : Task) : Task :=
  { t with
    project := b.project.getD t.project,
    name := b.name.getD t.name,
    description := match b.description with | some d => some d | none => t.description,
    duration := match b.duration with | some d => some d | none => t.duration,
    startDate := match b.startDate with | some d => some d | none => t.startDate,
    endDate := match b.endDate with | some d => some d | none => t.endDate,
    owner := b.owner.getD t.owner,
    updatedAt := now }

/-- Handler `PUT /api/tasks/:id` (lines 162-175):
`findOneAndUpdate({_id: id, owner: req.user._id}, req.body, ...)`. -/
def putTask (user : Option String) (tid : String) (b : TaskBody)
    (tasks : List Task) (now : Nat) : Nat × List Task :=
  match user with
  | none => (500, tasks)
  | some uid =>
    if !isValidObjectIdString tid then (500, tasks)
    else if !b.updateOk then (500, tasks)
    else
      match List.find? (fun t => t.id == tid && t.owner == uid) tasks with
      | none => (404, tasks)
      | some t0 =>
          (200, replaceFirst (fun t => t.id == tid && t.owner == uid)
                  (applyTaskUpdate b now t0) tasks)

/-- Handler `DELETE /api/tasks/:id` (lines 178-187):
`findOneAndDelete({_id: id, owner: req.user._id})`. -/
def deleteTask (user : Option String) (tid : String) (tasks : List Task) :
    Nat × List Task :=
  match user with
  | none => (500, tasks)
  | some uid =>
    if !isValidObjectIdString tid then (500, tasks)
    else
      match List.find? (fun t => t.id == tid && t.owner == uid) tasks with
      | none => (404, tasks)
      | some _ => (200, removeFirst (fun t => t.id == tid && t.owner == uid) tasks)

/-! Concrete fixtures used by the theorems below. -/

/-- A provider oracle that accepts exactly the authorization code
`goodcode`, answering with the token `tok` and a fixed profile. -/
def fixedProvider : Provider :=
  { exchangeCode := fun c =>
      match c with
      | some s => if s = "goodcode" then some "tok" else none
      | none => none,
    fetchProfile := fun t =>
      if t = "tok" then
        some { sub := "S1", name := "Ada", email := "ada@x.io", picture := none }
      else none }

/-- C1.  The claim fails on the code: take a callback request with no
provider error, an existing session record that holds no `oauthState`
(no prior Initiate ever ran), and no `state` query parameter at all.
The JavaScript comparison `state !== verifySession.linkedInState` is
`undefined !== undefined`, which is false, so the handler does not
terminate with the `invalid_state` redirect; it proceeds to the token
exchange and — the supplied code being valid — binds user `u1` to the
session.  The claim demanded a `StateMismatchError` redirect and no
binding whenever the stored state is absent. -/
theorem c1_counterexample :
    (linkedinCallback fixedProvider
      { code := some "goodcode", state := none, error := none, error_description := none }
      "sid1" [("sid1", { userId := none, linkedInState := none })] [] "u1" 5).result
      = CallbackResult.success
    ∧ (SessionStore.get (linkedinCallback fixedProvider
        { code := some "goodcode", state := none, error := none, error_description := none }
        "sid1" [("sid1", { userId := none, linkedInState := none })] [] "u1" 5).sessions
        "sid1").map SessionRecord.userId = some (some "u1") := by
  decide

/-- C1, amended.  For every callback with no provider error and an
existing session record: the handler binds an identity only if the query
`state` and the stored `linkedInState` are equal as optional values
(JavaScript `===`, under which two absent values compare equal); and
whenever they differ — in particular whenever exactly one of the two is
absent — the flow terminates with the `invalid_state` redirect and
leaves the session store and the user collection untouched. -/
theorem c1_state_gate (prov : Provider) (q : CallbackQuery) (sid : String)
    (sessions : SessionStore) (users : List User) (freshId : String) (now : Nat)
    (sess : SessionRecord)
    (hErr : q.error = none) (hSess : sessions.get sid = some sess) :
    ((linkedinCallback prov q sid sessions users freshId now).result =
        CallbackResult.success → q.state = sess.linkedInState)
    ∧ (q.state ≠ sess.linkedInState →
        linkedinCallback prov q sid sessions users freshId now =
          ⟨CallbackResult.invalidState, sessions, users⟩) := by
  unfold linkedinCallback
  simp only [hErr, hSess]
  by_cases h : q.state = sess.linkedInState
  · refine ⟨fun _ => h, fun hc => absurd h hc⟩
  · rw [if_pos h]
    refine ⟨fun hres => ?_, fun _ => rfl⟩
    simp at hres
theorem c1_state_gate_witness :
    ((linkedinCallback fixedProvider
        { code := some "goodcode", state := some "forged", error := none,
          error_description := none }
        "sid1" [("sid1", { userId := none, linkedInState := some "abc" })] [] "u1" 5).result =
        CallbackResult.success → (some "forged" : Option String) = some "abc")
    ∧ ((some "forged" : Option String) ≠ some "abc" →
        linkedinCallback fixedProvider
          { code := some "goodcode", state := some "forged", error := none,
            error_description := none }
          "sid1" [("sid1", { userId := none, linkedInState := some "abc" })] [] "u1" 5 =
          ⟨CallbackResult.invalidState,
            [("sid1", { userId := none, linkedInState := some "abc" })], []⟩) :=
  c1_state_gate fixedProvider
    { code := some "goodcode", state := some "forged", error := none,
      error_description := none }
    "sid1" [("sid1", { userId := none, linkedInState := some "abc" })] [] "u1" 5
    { userId := none, linkedInState := some "abc" } rfl (by decide)

/-- The callback query of a first, legitimate LinkedIn callback carrying
the state nonce `abc`. -/
def replayQuery : CallbackQuery :=
  { code := some "goodcode", state := some "abc", error := none, error_description := none }

/-- A session store holding one session whose Initiate stored the state
nonce `abc`. -/
def replaySessions : SessionStore :=
  [("sid1", { userId := none, linkedInState := some "abc" })]

/-- The outcome of the first (successful) callback. -/
def firstCallback : CallbackOutcome :=
  linkedinCallback fixedProvider replayQuery "sid1" replaySessions [] "u1" 5

/-- Helper for `SessionStore.get_set`: on a store that does contain the
key, the update branch of `set` rewrites the first (and every) entry
with that key, so a lookup finds exactly the new record. -/
theorem find?_map_set (sid : String) (r : SessionRecord)
    (st : List (String × SessionRecord))
    (h : List.any st (fun p => p.1 == sid) = true) :
    List.find? (fun p => p.1 == sid)
      (List.map (fun p => if p.1 == sid then (sid, r) else p) st) = some (sid, r) := by
  induction st with
  | nil => simp at h
  | cons a as ih =>
      simp only [List.map_cons]
      by_cases ha : (a.1 == sid) = true
      · rw [if_pos ha]
        simp [List.find?]
      · rw [if_neg ha]
        have ha2 : (a.1 == sid) = false := by simpa using ha
        simp only [List.find?, ha2]
        apply ih
        simp only [List.any_cons] at h
        rw [ha2] at h
        simpa using h

/-- Looking up a session id immediately after persisting a record under
it yields that record, in both branches of `SessionStore.set`. -/
theorem SessionStore.get_set (st : SessionStore) (sid : String) (r : SessionRecord) :
    (st.set sid r).get sid = some r := by
  unfold SessionStore.set
  by_cases h : List.any st (fun p => p.1 == sid) = true
  · rw [if_pos h]
    show (List.find? (fun p => p.1 == sid)
      (List.map (fun p => if p.1 == sid then (sid, r) else p) st)).map Prod.snd = some r
    rw [find?_map_set sid r st h]
    rfl
  · rw [if_neg h]
    show (List.find? (fun p => p.1 == sid) ((sid, r) :: st)).map Prod.snd = some r
    simp [List.find?]

/-- C2.  Single use of the stored state, as claimed.  Consider a
callback that completes successfully against a session whose Initiate
had stored the state value `s`.  The record persisted for that session
carries the bound user and no `linkedInState`: the handler deletes the
state from the session object after its explicit save, and the session
middleware (mounted with `resave: true`) commits the session once more
when the response ends, persisting the cleared form.  A second callback
replaying the very same state value `s` against that session therefore
fails the step-3 comparison (`s` against nothing) and terminates with
the `invalid_state` redirect, binding nothing. -/
theorem c2_state_single_use (prov prov2 : Provider) (q q2 : CallbackQuery)
    (sid : String) (sessions : SessionStore) (users : List User)
    (freshId freshId2 : String) (now now2 : Nat) (sess : SessionRecord) (s : String)
    (hSess : sessions.get sid = some sess)
    (hState : sess.linkedInState = some s)
    (hSuccess : (linkedinCallback prov q sid sessions users freshId now).result =
      CallbackResult.success)
    (hq2e : q2.error = none)
    (hq2s : q2.state = sess.linkedInState) :
    (SessionStore.get (linkedinCallback prov q sid sessions users freshId now).sessions
        sid).map SessionRecord.linkedInState = some none
    ∧ (linkedinCallback prov2 q2 sid
        (linkedinCallback prov q sid sessions users freshId now).sessions
        (linkedinCallback prov q sid sessions users freshId now).users
        freshId2 now2).result = CallbackResult.invalidState := by
  cases hqe : q.error with
  | some e =>
      unfold linkedinCallback at hSuccess
      simp only [hqe] at hSuccess
      simp at hSuccess
  | none =>
      unfold linkedinCallback at hSuccess
      simp only [hqe, hSess] at hSuccess
      by_cases hst : q.state = sess.linkedInState
      · rw [if_neg (not_not_intro hst)] at hSuccess
        cases hex : prov.exchangeCode q.code with
        | none => simp only [hex] at hSuccess; simp at hSuccess
        | some tok =>
            cases hpr : prov.fetchProfile tok with
            | none => simp only [hex, hpr] at hSuccess; simp at hSuccess
            | some prof =>
                have hrun : linkedinCallback prov q sid sessions users freshId now =
                    ⟨CallbackResult.success,
                     sessions.set sid
                       { userId := some (upsertLinkedInUser users freshId prof now).2.id,
                         linkedInState := none },
                     (upsertLinkedInUser users freshId prof now).1⟩ := by
                  unfold linkedinCallback
                  simp only [hqe, hSess, hex, hpr]
                  rw [if_neg (not_not_intro hst)]
                rw [hrun]
                constructor
                · rw [SessionStore.get_set]
                  rfl
                · unfold linkedinCallback
                  simp only [hq2e, SessionStore.get_set, hq2s, hState]
                  rw [if_pos (by simp)]
      · rw [if_pos hst] at hSuccess
        simp at hSuccess
theorem c2_state_single_use_witness :
    (SessionStore.get firstCallback.sessions "sid1").map SessionRecord.linkedInState =
      some none
    ∧ (linkedinCallback fixedProvider replayQuery "sid1"
        firstCallback.sessions firstCallback.users "u2" 6).result =
        CallbackResult.invalidState :=
  c2_state_single_use fixedProvider fixedProvider replayQuery replayQuery "sid1"
    replaySessions [] "u1" "u2" 5 6 { userId := none, linkedInState := some "abc" } "abc"
    (by decide) rfl (by decide) rfl rfl

/-- A project document owned by user `A`, with a well-formed Mongo id. -/
def projA : Project :=
  { id := "aaaaaaaaaaaaaaaaaaaaaaaa", name := "P", description := none,
    startDate := none, endDate := none, owner := "A", createdAt := 0, updatedAt := 0 }

/-- An update body that only renames a project. -/
def renameBody : ProjectBody :=
  { name := some "X", description := none, startDate := none, endDate := none, owner := none }

/-- C3.  The claim fails on the code: the handlers are not uniform.  On
a store holding only a project owned by `A`, the Project get-by-id
handler returns that document with status 200 — the handler runs
`Project.findById(req.params.id)` and never consults `req.user`, so the
very same response goes to user `B` or to an unauthenticated caller —
while the owner-scoped handlers deny user `B` the same document: the
update handler answers 404 and the list handler returns nothing. -/
theorem c3_counterexample :
    getProjectById [projA] "aaaaaaaaaaaaaaaaaaaaaaaa" = (200, some projA)
    ∧ putProject (some "B") "aaaaaaaaaaaaaaaaaaaaaaaa" renameBody [projA] 1 = (404, [projA])
    ∧ getProjects (some "B") [projA] = [] := by
  decide

/-- C3, amended.  The access filter is applied as follows: the List
handlers filter by owner exactly when the request is authenticated (an
unauthenticated list returns every document); the Task get-by-id lookup
is owner-scoped — it answers 200 precisely when a task with that id AND
that owner exists, and any document it returns carries the requester's
owner — but the Project get-by-id lookup is scoped by id alone: it
answers 200 precisely when some project has that id, whoever owns it. -/
theorem c3_access_scoping (uid pid tid : String)
    (projects : List Project) (tasks : List Task) :
    (∀ p ∈ getProjects (some uid) projects, p.owner = uid)
    ∧ getProjects none projects = projects
    ∧ (isValidObjectIdString pid = true →
        ((getProjectById projects pid).1 = 200 ↔ ∃ p ∈ projects, p.id = pid))
    ∧ (∀ t, (getTaskById (some uid) tid tasks).2 = some t → t.id = tid ∧ t.owner = uid)
    ∧ (isValidObjectIdString tid = true →
        ((getTaskById (some uid) tid tasks).1 = 200 ↔
          ∃ t ∈ tasks, t.id = tid ∧ t.owner = uid)) := by
  refine ⟨?_, rfl, ?_, ?_, ?_⟩
  · intro p hp
    simp only [getProjects, List.mem_filter] at hp
    exact beq_iff_eq.mp hp.2
  · intro hv
    have h1 : (getProjectById projects pid).1 = 200 ↔
        (List.find? (fun p => p.id == pid) projects).isSome := by
      unfold getProjectById
      rw [hv]
      cases List.find? (fun p => p.id == pid) projects <;> simp
    rw [h1, List.find?_isSome]
    simp only [beq_iff_eq]
  · intro t ht
    unfold getTaskById at ht
    by_cases hv : isValidObjectIdString tid
    · rw [hv] at ht
      cases hf : List.find? (fun x => x.id == tid && x.owner == uid) tasks with
      | none => simp [hf] at ht
      | some t0 =>
          simp [hf] at ht
          have hpred := List.find?_some hf
          simp only [Bool.and_eq_true, beq_iff_eq] at hpred
          rw [← ht]
          exact hpred
    · simp only [Bool.not_eq_true] at hv
      rw [hv] at ht
      simp at ht
  · intro hv
    have h1 : (getTaskById (some uid) tid tasks).1 = 200 ↔
        (List.find? (fun t => t.id == tid && t.owner == uid) tasks).isSome := by
      unfold getTaskById
      rw [hv]
      cases hf : List.find? (fun t => t.id == tid && t.owner == uid) tasks with
      | none => simp [hf]
      | some t0 => simp [hf]
    rw [h1, List.find?_isSome]
    simp only [Bool.and_eq_true, beq_iff_eq]
theorem c3_access_scoping_witness :
    projA.owner = "A"
    ∧ ((getProjectById [projA] "aaaaaaaaaaaaaaaaaaaaaaaa").1 = 200 ↔
        ∃ p ∈ [projA], p.id = "aaaaaaaaaaaaaaaaaaaaaaaa") :=
  ⟨(c3_access_scoping "A" "aaaaaaaaaaaaaaaaaaaaaaaa" "bbbbbbbbbbbbbbbbbbbbbbbb" [projA] []).1
      projA (by decide),
   (c3_access_scoping "A" "aaaaaaaaaaaaaaaaaaaaaaaa" "bbbbbbbbbbbbbbbbbbbbbbbb" [projA] []).2.2.1
      (by decide)⟩

/-- A stored identity created by a LinkedIn login: socialId `S1`,
platform `linkedin`. -/
def linkedInUserOld : User :=
  { id := "u1", socialId := "S1", name := "Old Name", email := "old@x.io",
    platform := "linkedin", profilePicture := "oldpic", createdAt := 0, lastLogin := 0 }

/-- A Google profile whose subject id collides with `linkedInUserOld`'s
`socialId`. -/
def googleProfileS1 : GoogleProfile :=
  { id := "S1", displayName := "New Name", email := "new@x.io", photo := some "newpic" }

/-- C4.  The claim fails on the Google path: the verify callback looks
the user up by `{socialId: profile.id}` without `platform`, so on a
store holding only a LinkedIn identity with the same social id it
matches that cross-platform record instead of creating a Google one,
and it refreshes only `lastLogin` — `name`, `email` and
`profilePicture` keep their stale values even though the profile
supplies new ones. -/
theorem c4_counterexample :
    googleVerify [linkedInUserOld] "u2" googleProfileS1 9 =
      ([{ linkedInUserOld with lastLogin := 9 }], { linkedInUserOld with lastLogin := 9 }) := by
  decide

/-- C4, amended.  Only the LinkedIn path behaves as the claim says: its
upsert is keyed on the pair (socialId, platform) — the saved user always
carries `socialId = profile.sub` and `platform = "linkedin"`, an
existing match is updated in place (no new record), an absent match
appends exactly one new record — and it refreshes `name`, `email`,
`profilePicture` and `lastLogin` on every exchange.  The Google path
instead looks up by `socialId` alone (so a record of any platform with
that social id is reused rather than a Google identity created) and
refreshes nothing but `lastLogin` on an existing record. -/
theorem c4_upsert_keying (users : List User) (freshId : String)
    (lp : LinkedInProfile) (gp : GoogleProfile) (now : Nat) :
    ((upsertLinkedInUser users freshId lp now).2.socialId = lp.sub
      ∧ (upsertLinkedInUser users freshId lp now).2.platform = "linkedin"
      ∧ (upsertLinkedInUser users freshId lp now).2.name = lp.name
      ∧ (upsertLinkedInUser users freshId lp now).2.email = lp.email
      ∧ (upsertLinkedInUser users freshId lp now).2.lastLogin = now)
    ∧ (List.find? (fun u => u.socialId == lp.sub && u.platform == "linkedin") users
          ≠ none →
        (upsertLinkedInUser users freshId lp now).1.length = users.length)
    ∧ (List.find? (fun u => u.socialId == lp.sub && u.platform == "linkedin") users
          = none →
        (upsertLinkedInUser users freshId lp now).1 =
          users ++ [(upsertLinkedInUser users freshId lp now).2])
    ∧ (∀ u0, List.find? (fun u => u.socialId == gp.id) users = some u0 →
        (googleVerify users freshId gp now).2 = { u0 with lastLogin := now }
        ∧ (googleVerify users freshId gp now).1.length = users.length) := by
  refine ⟨?_, ?_, ?_, ?_⟩
  · unfold upsertLinkedInUser
    cases hf : List.find? (fun u => u.socialId == lp.sub && u.platform == "linkedin") users with
    | none => simp
    | some u0 =>
        have hpred := List.find?_some hf
        simp only [Bool.and_eq_true, beq_iff_eq] at hpred
        simp [hpred.1, hpred.2]
  · intro hne
    unfold upsertLinkedInUser
    cases hf : List.find? (fun u => u.socialId == lp.sub && u.platform == "linkedin") users with
    | none => exact absurd hf hne
    | some u0 => simp
  · intro hf
    unfold upsertLinkedInUser
    simp [hf]
  · intro u0 hf
    unfold googleVerify
    simp [hf]
theorem c4_upsert_keying_witness :
    (googleVerify [linkedInUserOld] "u2" googleProfileS1 9).2 =
      { linkedInUserOld with lastLogin := 9 }
    ∧ (googleVerify [linkedInUserOld] "u2" googleProfileS1 9).1.length =
      [linkedInUserOld].length :=
  (c4_upsert_keying [linkedInUserOld] "u2"
      { sub := "S1", name := "N", email := "n@x.io", picture := none }
      googleProfileS1 9).2.2.2 linkedInUserOld (by decide)

/-- C5.  The claim matches the repository's own test
(`project.test.js`, the case named `should return error if project name
is missing`, which expects status 400 and the message `Project name is
required`), but the code disagrees: the handler has no validation branch
— the missing `name` only surfaces when `project.save()` rejects with a
mongoose `ValidationError`, which the generic `catch` turns into a 500
with the raw mongoose message.  On the test's own input (an
authenticated POST with body `{description: 'Missing Name'}`) the
response status is 500, not 400; no document is created either way. -/
theorem c5_missing_name_gives_500 :
    postProject (some "A")
      { name := none, description := some "Missing Name", startDate := none,
        endDate := none, owner := none } [] "p1" 0 = (500, []) := by
  decide

/-- C6.  Task creation preconditions, as claimed: a body whose `project`
value fails `mongoose.Types.ObjectId.isValid` (including an absent one)
gets 400 with the task collection untouched; a well-formed `project`
referencing no project document with that id owned by the requesting
user gets 404, again with the task collection untouched.  Task documents
are only ever appended after both checks pass. -/
theorem c6_task_create_preconditions (user : Option String) (uid : String)
    (b : TaskBody) (projects : List Project) (tasks : List Task)
    (freshId : String) (now : Nat) :
    (isValidObjectId b.project = false →
        postTask user b projects tasks freshId now = (400, tasks))
    ∧ (∀ pid, b.project = some pid → isValidObjectIdString pid = true →
        List.find? (fun p => p.id == pid && p.owner == uid) projects = none →
        postTask (some uid) b projects tasks freshId now = (404, tasks)) := by
  constructor
  · intro hbad
    unfold postTask
    simp [hbad]
  · intro pid hproj hval hfind
    unfold postTask
    rw [hproj]
    simp [isValidObjectId, hval, hfind]
theorem c6_task_create_preconditions_witness :
    postTask (some "A")
      { project := some "zz", name := some "T", description := none, duration := none,
        startDate := none, endDate := none, owner := none } [] [] "t1" 0 = (400, [])
    ∧ postTask (some "A")
      { project := some "cccccccccccccccccccccccc", name := some "T", description := none,
        duration := none, startDate := none, endDate := none, owner := none } [] [] "t1" 0
      = (404, []) :=
  ⟨(c6_task_create_preconditions (some "A") "A"
      { project := some "zz", name := some "T", description := none, duration := none,
        startDate := none, endDate := none, owner := none } [] [] "t1" 0).1 (by decide),
   (c6_task_create_preconditions (some "A") "A"
      { project := some "cccccccccccccccccccccccc", name := some "T", description := none,
        duration := none, startDate := none, endDate := none, owner := none } [] [] "t1" 0).2
      "cccccccccccccccccccccccc" rfl (by decide) rfl⟩

/-- A task referencing `projA`, owned by `A`, with a well-formed id. -/
def taskA : Task :=
  { id := "bbbbbbbbbbbbbbbbbbbbbbbb", project := "aaaaaaaaaaaaaaaaaaaaaaaa", name := "T",
    description := none, duration := none, startDate := none, endDate := none,
    owner := "A", createdAt := 0, updatedAt := 0 }

/-- C7.  Cascade delete, as claimed: whenever
`DELETE /api/projects/:id` succeeds (status 200), the surviving task
collection contains no task whose `project` equals the deleted id — the
handler runs `Task.deleteMany({project: id})`, with no owner condition —
so a subsequent task listing filtered by that project id returns the
empty list for every requester, and any task a subsequent get-by-id
still returns references some other project. -/
theorem c7_cascade_delete (uid pid : String)
    (projects : List Project) (tasks : List Task)
    (h : (deleteProject (some uid) pid projects tasks).1 = 200) :
    (∀ t ∈ (deleteProject (some uid) pid projects tasks).2.2, t.project ≠ pid)
    ∧ getTasks (some uid) (some pid) (deleteProject (some uid) pid projects tasks).2.2
        = (200, [])
    ∧ getTasks none (some pid) (deleteProject (some uid) pid projects tasks).2.2
        = (200, [])
    ∧ (∀ tid t, (getTaskById (some uid) tid
          (deleteProject (some uid) pid projects tasks).2.2).2 = some t →
        t.project ≠ pid) := by
  have hval : isValidObjectIdString pid = true := by
    by_contra hv
    simp only [Bool.not_eq_true] at hv
    unfold deleteProject at h
    simp [hv] at h
  have htasks : (deleteProject (some uid) pid projects tasks).2.2 =
      List.filter (fun t => t.project != pid) tasks := by
    unfold deleteProject at h ⊢
    cases hf : List.find? (fun p => p.id == pid && p.owner == uid) projects with
    | none => simp [hval, hf] at h
    | some p0 => simp [hval, hf]
  have hmem : ∀ t ∈ (deleteProject (some uid) pid projects tasks).2.2, t.project ≠ pid := by
    intro t ht
    rw [htasks] at ht
    have := (List.mem_filter.mp ht).2
    simpa using this
  have hempty : (pid == "") = false := by
    by_contra hc
    simp only [Bool.not_eq_false, beq_iff_eq] at hc
    subst hc
    exact absurd hval (by decide)
  refine ⟨hmem, ?_, ?_, ?_⟩
  · simp only [getTasks, hempty, hval, Bool.false_eq_true, if_false, if_true,
      Prod.mk.injEq, true_and]
    rw [List.filter_eq_nil_iff]
    intro t ht
    have := hmem t (List.mem_filter.mp ht).1
    simpa using this
  · simp only [getTasks, hempty, hval, Bool.false_eq_true, if_false, if_true,
      Prod.mk.injEq, true_and]
    rw [List.filter_eq_nil_iff]
    intro t ht
    have := hmem t ht
    simpa using this
  · intro tid t ht
    unfold getTaskById at ht
    by_cases hv : isValidObjectIdString tid
    · rw [hv] at ht
      cases hf : List.find? (fun x => x.id == tid && x.owner == uid)
          (deleteProject (some uid) pid projects tasks).2.2 with
      | none => simp [hf] at ht
      | some t0 =>
          simp [hf] at ht
          rw [← ht]
          exact hmem t0 (List.mem_of_find?_eq_some hf)
    · simp only [Bool.not_eq_true] at hv
      rw [hv] at ht
      simp at ht
theorem c7_cascade_delete_witness :
    getTasks (some "A") (some "aaaaaaaaaaaaaaaaaaaaaaaa")
      (deleteProject (some "A") "aaaaaaaaaaaaaaaaaaaaaaaa" [projA] [taskA]).2.2
      = (200, []) :=
  (c7_cascade_delete "A" "aaaaaaaaaaaaaaaaaaaaaaaa" [projA] [taskA] (by decide)).2.1

/-- C8.  Update and Delete on both entities, as claimed: with a
well-formed id and a castable update body, when no document carries both
the requested id and the requester's owner id — which includes a
document with that id owned by someone else — all four handlers answer
404 and return every collection exactly as it was.  Success requires a
document matching id and owner simultaneously, since each handler
filters on `{_id: req.params.id, owner: req.user._id}`. -/
theorem c8_no_match_is_404 (uid pid tid : String) (pb : ProjectBody) (tb : TaskBody)
    (projects : List Project) (tasks : List Task) (now : Nat)
    (hvp : isValidObjectIdString pid = true) (hvt : isValidObjectIdString tid = true)
    (hpb : pb.updateOk = true) (htb : tb.updateOk = true)
    (hp : List.find? (fun p => p.id == pid && p.owner == uid) projects = none)
    (ht : List.find? (fun t => t.id == tid && t.owner == uid) tasks = none) :
    putProject (some uid) pid pb projects now = (404, projects)
    ∧ deleteProject (some uid) pid projects tasks = (404, projects, tasks)
    ∧ putTask (some uid) tid tb tasks now = (404, tasks)
    ∧ deleteTask (some uid) tid tasks = (404, tasks) := by
  refine ⟨?_, ?_, ?_, ?_⟩
  · unfold putProject
    simp [hvp, hpb, hp]
  · unfold deleteProject
    simp [hvp, hp]
  · unfold putTask
    simp [hvt, htb, ht]
  · unfold deleteTask
    simp [hvt, ht]
theorem c8_no_match_is_404_witness :
    putProject (some "B") "aaaaaaaaaaaaaaaaaaaaaaaa" renameBody [projA] 3 = (404, [projA])
    ∧ deleteProject (some "B") "aaaaaaaaaaaaaaaaaaaaaaaa" [projA] [taskA]
        = (404, [projA], [taskA])
    ∧ putTask (some "B") "bbbbbbbbbbbbbbbbbbbbbbbb"
        { project := none, name := some "X", description := none, duration := none,
          startDate := none, endDate := none, owner := none } [taskA] 3 = (404, [taskA])
    ∧ deleteTask (some "B") "bbbbbbbbbbbbbbbbbbbbbbbb" [taskA] = (404, [taskA]) :=
  c8_no_match_is_404 "B" "aaaaaaaaaaaaaaaaaaaaaaaa" "bbbbbbbbbbbbbbbbbbbbbbbb"
    renameBody
    { project := none, name := some "X", description := none, duration := none,
      startDate := none, endDate := none, owner := none }
    [projA] [taskA] 3 (by decide) (by decide) (by decide) (by decide) (by decide) (by decide)

/-- A project owned by `A` whose `description` was set and whose
`updatedAt` stamp is 0. -/
def projD : Project :=
  { id := "aaaaaaaaaaaaaaaaaaaaaaaa", name := "P", description := some "keep",
    startDate := none, endDate := none, owner := "A", createdAt := 0, updatedAt := 0 }

/-- C9.  The claim fails on the code because both schemas declare
`timestamps: true`: a successful partial update rewrites `updatedAt` —
a field of the entity (spec data model) that the body does not supply —
so not every unsupplied field retains its previous value, and repeating
the same update at a later instant produces a different document. -/
theorem c9_counterexample :
    putProject (some "A") "aaaaaaaaaaaaaaaaaaaaaaaa" renameBody [projD] 7
      = (200, [{ projD with name := "X", updatedAt := 7 }])
    ∧ ({ projD with name := "X", updatedAt := 7 }).updatedAt ≠ projD.updatedAt
    ∧ applyProjectUpdate renameBody 8 (applyProjectUpdate renameBody 7 projD)
        ≠ applyProjectUpdate renameBody 7 projD := by
  decide

/-- C9, amended.  The merge is partial exactly as claimed for every
entity field except the managed `updatedAt` stamp: on both entities an
update retains `id`, `createdAt` and every schema field the body does
not supply, while `updatedAt` always becomes the time of the update; and
the merge is idempotent up to that stamp — re-applying the same body
yields the same document as applying it once at the later instant. -/
theorem c9_partial_merge (b : ProjectBody) (tb : TaskBody) (p : Project) (t : Task)
    (n1 n2 : Nat) :
    ((b.name = none → (applyProjectUpdate b n1 p).name = p.name)
      ∧ (b.description = none → (applyProjectUpdate b n1 p).description = p.description)
      ∧ (b.startDate = none → (applyProjectUpdate b n1 p).startDate = p.startDate)
      ∧ (b.endDate = none → (applyProjectUpdate b n1 p).endDate = p.endDate)
      ∧ (b.owner = none → (applyProjectUpdate b n1 p).owner = p.owner)
      ∧ (applyProjectUpdate b n1 p).id = p.id
      ∧ (applyProjectUpdate b n1 p).createdAt = p.createdAt
      ∧ (applyProjectUpdate b n1 p).updatedAt = n1)
    ∧ applyProjectUpdate b n2 (applyProjectUpdate b n1 p) = applyProjectUpdate b n2 p
    ∧ ((tb.project = none → (applyTaskUpdate tb n1 t).project = t.project)
      ∧ (tb.name = none → (applyTaskUpdate tb n1 t).name = t.name)
      ∧ (tb.description = none → (applyTaskUpdate tb n1 t).description = t.description)
      ∧ (tb.duration = none → (applyTaskUpdate tb n1 t).duration = t.duration)
      ∧ (tb.startDate = none → (applyTaskUpdate tb n1 t).startDate = t.startDate)
      ∧ (tb.endDate = none → (applyTaskUpdate tb n1 t).endDate = t.endDate)
      ∧ (tb.owner = none → (applyTaskUpdate tb n1 t).owner = t.owner)
      ∧ (applyTaskUpdate tb n1 t).id = t.id
      ∧ (applyTaskUpdate tb n1 t).createdAt = t.createdAt
      ∧ (applyTaskUpdate tb n1 t).updatedAt = n1)
    ∧ applyTaskUpdate tb n2 (applyTaskUpdate tb n1 t) = applyTaskUpdate tb n2 t := by
  obtain ⟨bn, bd, bs, be, bo⟩ := b
  obtain ⟨tp, tn, td, tu, ts, te, tw⟩ := tb
  refine ⟨⟨?_, ?_, ?_, ?_, ?_, rfl, rfl, rfl⟩, ?_,
    ⟨?_, ?_, ?_, ?_, ?_, ?_, ?_, rfl, rfl, rfl⟩, ?_⟩
  · intro h; subst h; simp [applyProjectUpdate]
  · intro h; subst h; simp [applyProjectUpdate]
  · intro h; subst h; simp [applyProjectUpdate]
  · intro h; subst h; simp [applyProjectUpdate]
  · intro h; subst h; simp [applyProjectUpdate]
  · cases bn <;> cases bd <;> cases bs <;> cases be <;> cases bo <;>
      simp [applyProjectUpdate]
  · intro h; subst h; simp [applyTaskUpdate]
  · intro h; subst h; simp [applyTaskUpdate]
  · intro h; subst h; simp [applyTaskUpdate]
  · intro h; subst h; simp [applyTaskUpdate]
  · intro h; subst h; simp [applyTaskUpdate]
  · intro h; subst h; simp [applyTaskUpdate]
  · intro h; subst h; simp [applyTaskUpdate]
  · cases tp <;> cases tn <;> cases td <;> cases tu <;> cases ts <;> cases te <;>
      cases tw <;> simp [applyTaskUpdate]
theorem c9_partial_merge_witness :
    (applyProjectUpdate renameBody 3 projD).description = projD.description
    ∧ applyProjectUpdate renameBody 4 (applyProjectUpdate renameBody 3 projD)
        = applyProjectUpdate renameBody 4 projD :=
  ⟨(c9_partial_merge renameBody
      { project := none, name := none, description := none, duration := none,
        startDate := none, endDate := none, owner := none } projD taskA 3 4).1.2.1 rfl,
   (c9_partial_merge renameBody
      { project := none, name := none, description := none, duration := none,
        startDate := none, endDate := none, owner := none } projD taskA 3 4).2.1⟩

/-- C10.  Owner stamping, as claimed: any document present in the
project or task collection after an authenticated POST either was
already there or carries the session user as `owner` — so a
client-supplied body `owner` can never materialise.  For projects the
handler spreads `req.body` first and then writes
`owner: req.user._id` on top; for tasks the destructuring never reads a
body `owner` at all. -/
theorem c10_owner_stamped (uid : String) (pb : ProjectBody) (tb : TaskBody)
    (projects : List Project) (tasks : List Task) (freshId : String) (now : Nat) :
    (∀ p ∈ (postProject (some uid) pb projects freshId now).2,
        p ∈ projects ∨ p.owner = uid)
    ∧ (∀ t ∈ (postTask (some uid) tb projects tasks freshId now).2,
        t ∈ tasks ∨ t.owner = uid) := by
  constructor
  · intro p hp
    cases hn : pb.name with
    | none =>
        have he : (postProject (some uid) pb projects freshId now).2 = projects := by
          simp [postProject, hn]
        rw [he] at hp
        exact Or.inl hp
    | some nm =>
        by_cases hnm : (nm == "") = true
        · have he : (postProject (some uid) pb projects freshId now).2 = projects := by
            simp [postProject, hn, hnm]
          rw [he] at hp
          exact Or.inl hp
        · have he : (postProject (some uid) pb projects freshId now).2 =
              projects ++ [{ id := freshId, name := nm, description := pb.description,
                             startDate := pb.startDate, endDate := pb.endDate,
                             owner := uid, createdAt := now, updatedAt := now }] := by
            simp [postProject, hn, hnm]
          rw [he] at hp
          rcases List.mem_append.mp hp with h | h
          · exact Or.inl h
          · simp only [List.mem_singleton] at h
            subst h
            exact Or.inr rfl
  · intro t ht
    by_cases hv : isValidObjectId tb.project = true
    · cases hproj : tb.project with
      | none => rw [hproj] at hv; exact absurd hv (by decide)
      | some pid =>
          have hvs : isValidObjectIdString pid = true := by
            rw [hproj] at hv
            simpa [isValidObjectId] using hv
          cases hf : List.find? (fun p => p.id == pid && p.owner == uid) projects with
          | none =>
              have he : (postTask (some uid) tb projects tasks freshId now).2 = tasks := by
                simp [postTask, hproj, isValidObjectId, hvs, hf]
              rw [he] at ht
              exact Or.inl ht
          | some p0 =>
              cases hn : tb.name with
              | none =>
                  have he : (postTask (some uid) tb projects tasks freshId now).2
                      = tasks := by
                    simp [postTask, hproj, isValidObjectId, hvs, hf, hn]
                  rw [he] at ht
                  exact Or.inl ht
              | some nm =>
                  by_cases hnm : (nm == "") = true
                  · have he : (postTask (some uid) tb projects tasks freshId now).2
                        = tasks := by
                      simp [postTask, hproj, isValidObjectId, hvs, hf, hn, hnm]
                    rw [he] at ht
                    exact Or.inl ht
                  · have he : (postTask (some uid) tb projects tasks freshId now).2 =
                        tasks ++ [{ id := freshId, project := pid, name := nm,
                                    description := tb.description, duration := tb.duration,
                                    startDate := tb.startDate, endDate := tb.endDate,
                                    owner := uid, createdAt := now, updatedAt := now }] := by
                      simp [postTask, hproj, isValidObjectId, hvs, hf, hn, hnm]
                    rw [he] at ht
                    rcases List.mem_append.mp ht with h | h
                    · exact Or.inl h
                    · simp only [List.mem_singleton] at h
                      subst h
                      exact Or.inr rfl
    · simp only [Bool.not_eq_true] at hv
      have he : (postTask (some uid) tb projects tasks freshId now).2 = tasks := by
        simp [postTask, hv]
      rw [he] at ht
      exact Or.inl ht
theorem c10_owner_stamped_witness :
    ({ id := "p1", name := "P", description := none, startDate := none, endDate := none,
       owner := "A", createdAt := 0, updatedAt := 0 } : Project) ∈ ([] : List Project)
    ∨ ({ id := "p1", name := "P", description := none, startDate := none, endDate := none,
         owner := "A", createdAt := 0, updatedAt := 0 } : Project).owner = "A" :=
  (c10_owner_stamped "A"
      { name := some "P", description := none, startDate := none, endDate := none,
        owner := some "EVIL" }
      { project := none, name := none, description := none, duration := none,
        startDate := none, endDate := none, owner := none } [] [] "p1" 0).1
    { id := "p1", name := "P", description := none, startDate := none, endDate := none,
      owner := "A", createdAt := 0, updatedAt := 0 } (by decide)

end MyappBack
